import Mathlib

/-!
Shallow embedding of the task-session core of the eigent backend
(`app/service/task.py`, `app/controller/chat_controller.py`,
`app/utils/extra_params_config.py`, `app/utils/toolkit/search_toolkit.py`,
`app/model/chat.py`), together with theorems checking the design
specification's claims about it.

Conventions of the embedding:
* Python dicts become association lists (`assocFind` / `assocSet` /
  `assocErase` mirror `d[k]` / `d[k] = v` / `del d[k]`).
* Timestamps (`datetime.now()`) are natural numbers counting seconds; the
  current time is threaded as an explicit `now` argument.
* Fallible Python code (functions that `raise`) returns `Except String`,
  the error string being the exception message.
* The filesystem is a set of existing directory trees, listed by path;
  `shutil.rmtree p` removes `p` and everything under it.
* Coroutine behaviour of an awaited `asyncio.Task` is abstracted to its
  observable outcome: already finished, raising the expected
  `CancelledError` when awaited after `cancel()`, or raising some other
  exception.
-/

namespace Eigent

/-- `Status` enum from `app/model/chat.py`. -/
inductive Status
  | confirming
  | confirmed
  | processing
  | done
deriving DecidableEq, Repr

/-- The queue payloads from `app/service/task.py` (`ActionData` union).
Only the constructors the claims exercise are distinguished; every other
kind is carried by `otherKind` with its discriminator tag. -/
inductive ActionData
  | improveAct (data : String) (new_task_id : Option String)
  | stopAct
  | otherKind (tag : String)
deriving DecidableEq, Repr

/-- Observable outcome of awaiting a background `asyncio.Task` after
`task.cancel()` (see `TaskLock.cleanup` in `app/service/task.py`). -/
inductive BgOutcome
  | cancels
  | raises (msg : String)
deriving DecidableEq, Repr

/-- A tracked background task: `done` mirrors `task.done()`; `outcome` is
what `await task` does after cancellation when the task was not done. -/
structure BgTask where
  isDone : Bool
  outcome : BgOutcome
deriving DecidableEq, Repr

/-- A registered toolkit handle. `objId` models Python object identity
(the `t is toolkit` comparison in `register_toolkit`); `value` models the
toolkit's contents, so two handles can be equal-valued yet distinct
instances. Teardown side effects are external and not modelled. -/
structure Toolkit where
  objId : Nat
  value : String
deriving DecidableEq, Repr

/-- One `conversation_history` entry (`add_conversation`). -/
structure ConvEntry where
  role : String
  content : String
  timestamp : Nat
deriving DecidableEq, Repr

/-- Association-list lookup, mirroring Python `d.get(k)` / `d[k]`. -/
def assocFind {α : Type} (l : List (String × α)) (k : String) : Option α :=
  match l with
  | [] => none
  | (k', v) :: rest => if k' = k then some v else assocFind rest k

/-- Association-list update, mirroring Python `d[k] = v` (keys are unique
in a dict; the first binding is replaced in place, a missing key is
appended, preserving insertion order as dicts do). -/
def assocSet {α : Type} (l : List (String × α)) (k : String) (v : α) :
    List (String × α) :=
  match l with
  | [] => [(k, v)]
  | (k', v') :: rest =>
    if k' = k then (k, v) :: rest else (k', v') :: assocSet rest k v

/-- Association-list removal, mirroring Python `del d[k]`. -/
def assocErase {α : Type} (l : List (String × α)) (k : String) :
    List (String × α) :=
  match l with
  | [] => []
  | (k', v') :: rest =>
    if k' = k then assocErase rest k else (k', v') :: assocErase rest k

/-- The per-session state object `TaskLock` from `app/service/task.py`.
Fields not exercised by any claim (`active_agent`, `mcp`,
`last_task_summary`, `question_agent`, `summary_generated`,
`current_task_id`, `camel_log_dir`, `attached_file_paths`,
`extra_params`) are omitted. `human_input` maps an agent name to the
contents of its capacity-1 `asyncio.Queue`. -/
structure TaskLock where
  id : String
  status : Status := Status.confirming
  queue : List ActionData := []
  human_input : List (String × List String) := []
  created_at : Nat := 0
  last_accessed : Nat := 0
  background_tasks : List BgTask := []
  registered_toolkits : List Toolkit := []
  conversation_history : List ConvEntry := []
  last_task_result : String := ""
  file_save_path : Option String := none
  new_folder_path : Option String := none
  creds_params : List (String × List (String × String)) := []
deriving DecidableEq, Repr

/-- `TaskLock.__init__`: fresh queue, empty `human_input` dict, clock
started at `now`. -/
def TaskLock.init (id : String) (now : Nat) : TaskLock :=
  { id := id, created_at := now, last_accessed := now }

/-- `TaskLock.put_queue`: refresh `last_accessed`, append to the queue. -/
def TaskLock.put_queue (tl : TaskLock) (data : ActionData) (now : Nat) :
    TaskLock :=
  { tl with last_accessed := now, queue := tl.queue ++ [data] }

/-- `TaskLock.get_queue`: refresh `last_accessed`, pop the queue head
(`none` models the consumer suspending on an empty queue). -/
def TaskLock.get_queue (tl : TaskLock) (now : Nat) :
    Option (ActionData × TaskLock) :=
  match tl.queue with
  | [] => none
  | a :: rest => some (a, { tl with last_accessed := now, queue := rest })

/-- Result of `TaskLock.put_human_input`: the dict access
`self.human_input[agent]` has no default, so a missing agent raises
`KeyError`; a full capacity-1 queue makes `put` wait. -/
inductive HumanPutResult
  | keyError
  | blocked
  | delivered (tl : TaskLock)
deriving DecidableEq, Repr

/-- Result of `TaskLock.get_human_input`: missing agent raises `KeyError`;
an empty queue makes `get` wait. -/
inductive HumanGetResult
  | keyError
  | waiting
  | got (reply : String) (tl : TaskLock)
deriving DecidableEq, Repr

/-- `TaskLock.put_human_input`: `await self.human_input[agent].put(data)`. -/
def TaskLock.put_human_input (tl : TaskLock) (agent : String)
    (reply : String) : HumanPutResult :=
  match assocFind tl.human_input agent with
  | none => HumanPutResult.keyError
  | some q =>
    if q.length ≥ 1 then HumanPutResult.blocked
    else HumanPutResult.delivered
      { tl with human_input := assocSet tl.human_input agent (q ++ [reply]) }

/-- `TaskLock.get_human_input`: `await self.human_input[agent].get()`. -/
def TaskLock.get_human_input (tl : TaskLock) (agent : String) :
    HumanGetResult :=
  match assocFind tl.human_input agent with
  | none => HumanGetResult.keyError
  | some [] => HumanGetResult.waiting
  | some (r :: rest) => HumanGetResult.got r
      { tl with human_input := assocSet tl.human_input agent rest }

/-- `TaskLock.add_human_input_listen`: `self.human_input[agent] =
asyncio.Queue(1)` — installs a fresh empty capacity-1 channel. -/
def TaskLock.add_human_input_listen (tl : TaskLock) (agent : String) :
    TaskLock :=
  { tl with human_input := assocSet tl.human_input agent [] }

/-- `TaskLock.register_toolkit`: append unless the same instance (object
identity, `t is toolkit`) is already present. -/
def TaskLock.register_toolkit (tl : TaskLock) (t : Toolkit) : TaskLock :=
  if tl.registered_toolkits.any (fun r => r.objId = t.objId) then tl
  else { tl with registered_toolkits := tl.registered_toolkits ++ [t] }

/-- `TaskLock.add_background_task`. -/
def TaskLock.add_background_task (tl : TaskLock) (t : BgTask) : TaskLock :=
  { tl with background_tasks := tl.background_tasks ++ [t] }

/-- The first exception (other than the expected `CancelledError`) raised
while `TaskLock.cleanup` cancels and awaits the tracked background tasks:
tasks that are already done are skipped (`if not task.done()`), awaited
tasks that raise `CancelledError` are passed over (`except
asyncio.CancelledError: pass`), and any other exception propagates. -/
def firstBgError (ts : List BgTask) : Option String :=
  ts.findSome? (fun t =>
    if t.isDone then none
    else
      match t.outcome with
      | BgOutcome.cancels => none
      | BgOutcome.raises msg => some msg)

/-- `TaskLock.cleanup` from `app/service/task.py`: cancel and await every
non-done background task (only `CancelledError` is caught, so any other
exception propagates out of `cleanup`, modelled by `Except.error`); then
clear `background_tasks`, invoke each registered toolkit's teardown
(failures there are logged and swallowed) and clear `registered_toolkits`.
In-place partial mutation of the lock on the propagating-exception path is
not modelled; no claim observes it. -/
def TaskLock.cleanup (tl : TaskLock) : Except String TaskLock :=
  match firstBgError tl.background_tasks with
  | some msg => Except.error msg
  | none => Except.ok { tl with background_tasks := [], registered_toolkits := [] }

/-- The lock as left behind by a successful `cleanup()`: both resource
lists cleared. -/
def cleanedLock (tl : TaskLock) : TaskLock :=
  { tl with background_tasks := [], registered_toolkits := [] }

/-- Process-wide state around the session registry of
`app/service/task.py`: the `task_locks` dict, the module global
`_cleanup_task` (whether a periodic staleness sweep task is running),
the OAuth states of `app/utils/oauth_state_manager.py` (keyed by
`"project_id:provider"` strings), and the filesystem (paths of existing
directory trees). -/
structure ServerState where
  task_locks : List (String × TaskLock) := []
  cleanup_task_started : Bool := false
  oauth_states : List String := []
  fs_dirs : List String := []
deriving DecidableEq, Repr

/-- `shutil.rmtree p`: removes the directory `p` and everything below it. -/
def rmtree (fs : List String) (p : String) : List String :=
  fs.filter (fun d => ¬(d = p ∨ (p ++ "/").isPrefixOf d))

/-- `get_task_lock`: raises `ProgramException("Task not found")` when the
id has no registry entry. -/
def get_task_lock (st : ServerState) (id : String) : Except String TaskLock :=
  match assocFind st.task_locks id with
  | none => Except.error "Task not found"
  | some tl => Except.ok tl

/-- `get_task_lock_if_exists`: nullable lookup, never throws. -/
def get_task_lock_if_exists (st : ServerState) (id : String) :
    Option TaskLock :=
  assocFind st.task_locks id

/-- `create_task_lock`: raises `ProgramException("Task already exists")`
over an existing id; otherwise registers a fresh `TaskLock`. The block
that would start the periodic cleanup task here is commented out in the
source, so `cleanup_task_started` is left unchanged. -/
def create_task_lock (st : ServerState) (id : String) (now : Nat) :
    Except String ServerState :=
  if (assocFind st.task_locks id).isSome then
    Except.error "Task already exists"
  else
    Except.ok { st with
      task_locks := st.task_locks ++ [(id, TaskLock.init id now)] }

/-- `get_or_create_task_lock`. -/
def get_or_create_task_lock (st : ServerState) (id : String) (now : Nat) :
    TaskLock × ServerState :=
  match assocFind st.task_locks id with
  | some tl => (tl, st)
  | none =>
    (TaskLock.init id now,
     { st with task_locks := st.task_locks ++ [(id, TaskLock.init id now)] })

/-- `oauth_state_manager.clear_project(id)`: drop every OAuth state whose
key starts with `f"{project_id}:"`. -/
def clear_project (st : ServerState) (id : String) : ServerState :=
  { st with oauth_states :=
      st.oauth_states.filter (fun k => ¬(id ++ ":").isPrefixOf k) }

/-- `cleanup_project_credentials` from `app/service/task.py`: remove the
`.eigent_credentials` directory under the session's `file_save_path`;
a missing lock, missing path or missing directory is a no-op. -/
def cleanup_project_credentials (st : ServerState) (id : String) :
    ServerState :=
  match get_task_lock_if_exists st id with
  | none => st
  | some tl =>
    match tl.file_save_path with
    | none => st
    | some p =>
      if (p ++ "/.eigent_credentials") ∈ st.fs_dirs then
        { st with fs_dirs := rmtree st.fs_dirs (p ++ "/.eigent_credentials") }
      else st

/-- `cleanup_file_save_path` from `app/service/task.py`: remove the whole
working-directory tree at the session's `file_save_path`; a missing lock,
missing path or missing directory is a no-op. -/
def cleanup_file_save_path (st : ServerState) (id : String) : ServerState :=
  match get_task_lock_if_exists st id with
  | none => st
  | some tl =>
    match tl.file_save_path with
    | none => st
    | some p =>
      if p ∈ st.fs_dirs then
        { st with fs_dirs := rmtree st.fs_dirs p }
      else st

/-- The final `del task_locks[id]` of `delete_task_lock`. -/
def deleteFinish (st : ServerState) (id : String) : ServerState :=
  { st with task_locks := assocErase st.task_locks id }

/-- `delete_task_lock` from `app/service/task.py`: raises
`ProgramException("Task not found")` on a missing entry; otherwise runs
`task_lock.cleanup()` (whose exceptions propagate, aborting everything
after it), clears the per-project OAuth state, removes on-disk
credentials, removes the working-directory tree, and finally deletes the
registry entry. (The in-place mutation of the lock object by `cleanup` is
reflected by re-binding the cleaned lock before the remaining steps.) -/
def delete_task_lock (st : ServerState) (id : String) :
    Except String ServerState :=
  match assocFind st.task_locks id with
  | none => Except.error "Task not found"
  | some tl =>
    match tl.cleanup with
    | Except.error msg => Except.error msg
    | Except.ok tl' =>
      Except.ok (deleteFinish
        (cleanup_file_save_path
          (cleanup_project_credentials
            (clear_project
              { st with task_locks := assocSet st.task_locks id tl' } id)
            id)
          id)
        id)

/-- Result of `_cleanup_task_lock_safe` (`app/controller/chat_controller.py`):
the possibly-updated server state and the returned boolean (`True` when
cleanup was performed). -/
structure SafeCleanupResult where
  state : ServerState
  performed : Bool
deriving DecidableEq, Repr

/-- `task_lock.status = Status.done` — the in-place status write performed
by `_cleanup_task_lock_safe` just before it calls `delete_task_lock`. -/
def markStatusDone (l : List (String × TaskLock)) (id : String) :
    List (String × TaskLock) :=
  l.map (fun p =>
    if p.1 = id then (p.1, { p.2 with status := Status.done }) else p)

/-- `_cleanup_task_lock_safe`: `False` for a falsy `task_lock`; `False`
without touching anything when the lock's id is no longer registered;
otherwise set the status to `done`, run `delete_task_lock`, and catch any
exception from it (logging it and returning `False`). -/
def cleanup_task_lock_safe (st : ServerState) (lockId : Option String) :
    SafeCleanupResult :=
  match lockId with
  | none => ⟨st, false⟩
  | some id =>
    if (assocFind st.task_locks id).isNone then ⟨st, false⟩
    else
      match delete_task_lock
        { st with task_locks := markStatusDone st.task_locks id } id with
      | Except.ok st' => ⟨st', true⟩
      | Except.error _ =>
        ⟨{ st with task_locks := markStatusDone st.task_locks id }, false⟩

/-- `SSE_TIMEOUT_SECONDS` from `app/controller/chat_controller.py`. -/
def SSE_TIMEOUT_SECONDS : Nat := 60 * 60

/-- `sse_json` from `app/model/chat.py` (`data` is the already-serialized
JSON payload). -/
def sse_json (step : String) (data : String) : String :=
  "data: \x7b\"step\": \"" ++ step ++ "\", \"data\": " ++ data ++ "\x7d\n\n"

/-- The synthetic error Event yielded on idle timeout:
`sse_json("error", {"message": f"Connection timeout: No data received for
{timeout_seconds // 60} minutes"})`. -/
def timeoutEvent (timeoutSeconds : Nat) : String :=
  sse_json "error"
    ("\x7b\"message\": \"Connection timeout: No data received for " ++
      toString (timeoutSeconds / 60) ++ " minutes\"\x7d")

/-- One step of the wrapped stream generator, as observed by
`timeout_stream_wrapper` while awaiting `generator.__anext__()` with a
deadline: the next Event arrives `delay` seconds after the previous one,
the transport is cancelled, or the generator raises. The end of the list
is `StopAsyncIteration` (the underlying stream ending naturally). -/
inductive GenStep
  | yields (delay : Nat) (data : String)
  | cancelledAt (delay : Nat)
  | failsAt (delay : Nat) (msg : String)
deriving DecidableEq, Repr

/-- The SSE frame carried by a `yields` step (used to state what the
wrapper forwards). -/
def genStepData : GenStep → String
  | GenStep.yields _ s => s
  | GenStep.cancelledAt _ => ""
  | GenStep.failsAt _ _ => ""

/-- How the wrapped stream terminates: `break` out of the loop (a normal
end of stream), re-raising `CancelledError`, or re-raising another
exception. -/
inductive Termination
  | normal
  | cancelled
  | errored (msg : String)
deriving DecidableEq, Repr

/-- The observable run of `timeout_stream_wrapper`: SSE frames yielded,
final server state, number of `_cleanup_task_lock_safe` invocations, and
how the stream terminated. -/
structure StreamResult where
  emitted : List String
  state : ServerState
  cleanupCalls : Nat
  termination : Termination
deriving DecidableEq, Repr

/-- `timeout_stream_wrapper` from `app/controller/chat_controller.py`.
Each iteration awaits the next generator step with deadline
`timeout_seconds - elapsed`, where the idle clock `last_data_time` resets
on every successfully delivered Event (so `elapsed = 0` at each new
await, processing time being negligible). A gap of at least
`timeoutSecs` with no Event therefore raises `asyncio.TimeoutError`: the
wrapper yields one synthetic error Event, runs the safe cleanup, and
breaks (normal termination). `StopAsyncIteration` breaks without
cleanup. A `CancelledError` or any other exception arriving before the
deadline triggers the safe cleanup (the `cleanup_triggered` guard flag is
still false on those paths) and is re-raised. -/
def runTimeoutStream (timeoutSecs : Nat) (steps : List GenStep)
    (st : ServerState) (lockId : Option String) : StreamResult :=
  match steps with
  | [] => ⟨[], st, 0, Termination.normal⟩
  | GenStep.yields d data :: rest =>
    if timeoutSecs ≤ d then
      let r := cleanup_task_lock_safe st lockId
      ⟨[timeoutEvent timeoutSecs], r.state, 1, Termination.normal⟩
    else
      let r := runTimeoutStream timeoutSecs rest st lockId
      ⟨data :: r.emitted, r.state, r.cleanupCalls, r.termination⟩
  | GenStep.cancelledAt d :: _ =>
    if timeoutSecs ≤ d then
      let r := cleanup_task_lock_safe st lockId
      ⟨[timeoutEvent timeoutSecs], r.state, 1, Termination.normal⟩
    else
      let r := cleanup_task_lock_safe st lockId
      ⟨[], r.state, 1, Termination.cancelled⟩
  | GenStep.failsAt d msg :: _ =>
    if timeoutSecs ≤ d then
      let r := cleanup_task_lock_safe st lockId
      ⟨[timeoutEvent timeoutSecs], r.state, 1, Termination.normal⟩
    else
      let r := cleanup_task_lock_safe st lockId
      ⟨[], r.state, 1, Termination.errored msg⟩

/-- `timedelta(hours=4)` from `_periodic_cleanup`, in seconds. -/
def STALE_TIMEOUT_SECONDS : Nat := 4 * 60 * 60

/-- `asyncio.sleep(300)` from `_periodic_cleanup`: the sweep interval. -/
def CLEANUP_INTERVAL_SECONDS : Nat := 300

/-- An entry is stale when `current_time - task_lock.last_accessed >
timedelta(hours=4)` (strict). -/
def isStale (now : Nat) (tl : TaskLock) : Bool :=
  tl.last_accessed + STALE_TIMEOUT_SECONDS < now

/-- The deletion loop of one sweep iteration: delete each stale id in
order; an exception from `delete_task_lock` escapes to the sweep's
`except Exception` handler, which logs it — the remaining stale ids are
skipped for this iteration. -/
def sweepDelete (ids : List String) (st : ServerState) : ServerState :=
  match ids with
  | [] => st
  | id :: rest =>
    match delete_task_lock st id with
    | Except.ok st' => sweepDelete rest st'
    | Except.error _ => st

/-- One iteration of the `while True` body of `_periodic_cleanup` from
`app/service/task.py` (after the 300-second sleep): collect every id
whose `last_accessed` is more than 4 hours in the past, then run
`delete_task_lock` on each. NOTE: the code that would start this sweep
(`asyncio.create_task(_periodic_cleanup())` inside `create_task_lock`) is
commented out in the source, and nothing else starts it. -/
def periodic_cleanup_sweep (st : ServerState) (now : Nat) : ServerState :=
  let staleIds := (st.task_locks.filter (fun p => isStale now p.2)).map
    (fun p => p.1)
  sweepDelete staleIds st

/-- HTTP outcome of a controller invocation: a plain `Response`, a raised
`fastapi.HTTPException`, a suspended call (e.g. `asyncio.run` on a full
capacity-1 channel), or an exception escaping the handler. -/
inductive HttpOutcome
  | ok (status : Nat)
  | httpError (status : Nat) (detail : String)
  | blocks
  | raised (exc : String)
deriving DecidableEq, Repr

/-- `SupplementChat` request body from `app/model/chat.py`. -/
structure SupplementChat where
  question : String
  task_id : Option String := none
deriving DecidableEq, Repr

/-- Modelled from the spec: the class `ProgramException`
(`app/exception/exception.py`) and the application-level exception
handlers registered on the FastAPI app are not under `src/`, so whether
the `except KeyError` branch of the controllers catches the
`ProgramException` raised by `get_task_lock`, or an app-level handler
surfaces it, cannot be read off the sources. The spec's error taxonomy
states that NotFound (unknown session id) is surfaced to the caller as
404, and the endpoint contract says `404 if session unknown`; a
task-not-found error escaping `get_task_lock` is therefore surfaced as a
404 response with the controller's detail text. -/
def notFoundResponse (id : String) : HttpOutcome :=
  HttpOutcome.httpError 404 ("Task " ++ id ++ " not found")

/-- Working-directory path derived in the `improve` controller:
`Path(base) / "projects" / f"project_{id}" / f"task_{task_id}"`, with
`base` the server-owned data root (`EIGENT_DATA_DIR` or the home
fallback), passed here explicitly as `dataDir`. -/
def projectTaskPath (dataDir id taskId : String) : String :=
  dataDir ++ "/projects/project_" ++ id ++ "/task_" ++ taskId

/-- `POST /chat/{id}` (`improve` in `app/controller/chat_controller.py`):
404 for an unknown session; if the session status is `done`, reset it to
`confirming` and clear `background_tasks` while leaving
`conversation_history` and `last_task_result` untouched; if a `task_id`
is supplied, derive and create the new working directory and store it on
the lock; finally enqueue an `improve` Action and answer 201. -/
def improve (st : ServerState) (id : String) (data : SupplementChat)
    (dataDir : String) (now : Nat) : HttpOutcome × ServerState :=
  match get_task_lock st id with
  | Except.error _ => (notFoundResponse id, st)
  | Except.ok tl =>
    let tl1 :=
      if tl.status = Status.done then
        { tl with status := Status.confirming, background_tasks := [] }
      else tl
    let tl2 :=
      match data.task_id with
      | some t => { tl1 with new_folder_path := some (projectTaskPath dataDir id t) }
      | none => tl1
    let fs2 :=
      match data.task_id with
      | some t =>
        let p := projectTaskPath dataDir id t
        if p ∈ st.fs_dirs then st.fs_dirs else st.fs_dirs ++ [p]
      | none => st.fs_dirs
    let tl3 := tl2.put_queue (ActionData.improveAct data.question data.task_id) now
    (HttpOutcome.ok 201,
     { st with task_locks := assocSet st.task_locks id tl3, fs_dirs := fs2 })

/-- `POST /chat/{id}/human-reply` (`human_reply` in
`app/controller/chat_controller.py`): 404 for an unknown session (see
`notFoundResponse`); otherwise `asyncio.run(task_lock.put_human_input(agent,
reply))` — the handler's `try` only wraps the lock lookup, so a `KeyError`
from the dict access `human_input[agent]` escapes the handler. -/
def human_reply (st : ServerState) (id : String) (agent reply : String) :
    HttpOutcome × ServerState :=
  match get_task_lock st id with
  | Except.error _ => (notFoundResponse id, st)
  | Except.ok tl =>
    match tl.put_human_input agent reply with
    | HumanPutResult.keyError => (HttpOutcome.raised "KeyError", st)
    | HumanPutResult.blocked => (HttpOutcome.blocks, st)
    | HumanPutResult.delivered tl' =>
      (HttpOutcome.ok 201,
       { st with task_locks := assocSet st.task_locks id tl' })

/-- Split a character list on `/` (structural recursion, so it reduces
definitionally on concrete inputs). -/
def splitOnSlash (cs : List Char) : List (List Char) :=
  match cs with
  | [] => [[]]
  | c :: rest =>
    if c = '/' then [] :: splitOnSlash rest
    else
      match splitOnSlash rest with
      | [] => [[c]]
      | h :: t => (c :: h) :: t

/-- `pathlib` parsing of a POSIX path string into components: splitting on
`/` drops empty components and `.` components, while `..` is kept as an
ordinary component (pathlib does not resolve it). -/
def pySplitParts (s : String) : List String :=
  ((splitOnSlash s.toList).map String.mk).filter
    (fun c => c ≠ "" ∧ c ≠ ".")

/-- `Path(name).name` — the final path component (`''` when there is
none, e.g. for `"/"` or `"."`). Used as `safe_name` in the attachment
loop of `post` (`app/controller/chat_controller.py`). -/
def pyPathName (s : String) : String :=
  ((pySplitParts s).getLast?).getD ""

/-- Resolve a component list the way the filesystem resolves the path at
open time: empty and `.` components vanish and `..` pops the previous
component (at the root it stays at the root). -/
def resolveComps (comps : List String) : List String :=
  comps.foldl
    (fun acc c =>
      if c = "" ∨ c = "." then acc
      else if c = ".." then acc.dropLast
      else acc ++ [c]) []

/-- One element of `Chat.attaches`. `name` is the result of
`attach.get("name") or attach.get("filename")` (`none` covers a missing
or falsy name); `content` is the result of `base64.b64decode` (`none`
models a decode failure, whose exception the loop catches and logs).
Paths are represented as component lists. -/
structure Attach where
  name : Option String
  content : Option (List Nat)
deriving DecidableEq, Repr

/-- The body of one iteration of the attachment-saving loop in `post`:
skip when name or content is missing/falsy; otherwise write the decoded
bytes at `task_root / Path(name).name`. `file_path.write_bytes` raises
`IsADirectoryError` when the target resolves to an existing directory
(the per-attachment `except` catches and logs it, skipping the file), so
a save only happens when the resolved target is not in `dirs`, the set of
existing directories (in resolved component form). Returns the written
path (as unresolved components `rootParts ++ [safe_name]`) or `none`. -/
def trySaveAttachment (dirs : List (List String)) (rootParts : List String)
    (a : Attach) : Option (List String) :=
  match a.name, a.content with
  | some n, some _ =>
    if n = "" then none
    else
      let safeName := pyPathName n
      let target := rootParts ++ [safeName]
      if resolveComps target ∈ dirs then none
      else some target
  | _, _ => none

/-- The attachment-saving loop of `post`: the written file paths, in
order (these are exactly the entries appended to `attached_file_paths`). -/
def saveAttachments (dirs : List (List String)) (rootParts : List String)
    (attaches : List Attach) : List (List String) :=
  match attaches with
  | [] => []
  | a :: rest =>
    match trySaveAttachment dirs rootParts a with
    | some p => p :: saveAttachments dirs rootParts rest
    | none => saveAttachments dirs rootParts rest

/-- `target` lies strictly inside the directory `root` (component form):
it extends `root` by at least one component. -/
def strictlyInside (root target : List String) : Prop :=
  ∃ rest, rest ≠ [] ∧ target = root ++ rest

/-- Python truthiness of an optional string (`None` and `""` are falsy). -/
def isTruthy (o : Option String) : Bool :=
  match o with
  | none => false
  | some s => s ≠ ""

/-- Python `a or b` on optional strings: `b` when `a` is `None` or
empty. -/
def pyOrStr (a b : Option String) : Option String :=
  if isTruthy a then a else b

/-- `get_unified` from `app/utils/extra_params_config.py`: return the
first of `keys` whose value is present and non-blank
(`v is not None and str(v).strip()`); the value is returned unstripped. -/
def get_unified (params : List (String × String)) (keys : List String) :
    Option String :=
  keys.findSome? (fun k =>
    match assocFind params k with
    | some v => if v.trim ≠ "" then some v else none
    | none => none)

/-- The process environment slice read by
`SearchToolkit.search_google` via `os.getenv`. -/
structure SearchEnv where
  google_api_key : Option String := none
  search_engine_id : Option String := none
  cloud_api_key : Option String := none
deriving DecidableEq, Repr

/-- `SearchToolkit._get_search_params`
(`app/utils/toolkit/search_toolkit.py`): the session's
`creds_params["search"]` dictionary, `{}` when the lock or the entry is
missing. -/
def getSearchParams (st : ServerState) (apiTaskId : String) :
    List (String × String) :=
  match get_task_lock_if_exists st apiTaskId with
  | none => []
  | some tl => (assocFind tl.creds_params "search").getD []

/-- The credential chain of `search_google`:
`params.get(unifiedKey) or params.get(legacyKey) or os.getenv(envVar)`. -/
def lookupWithFallback (params : List (String × String))
    (unifiedKey legacyKey : String) (envVal : Option String) :
    Option String :=
  pyOrStr (pyOrStr (assocFind params unifiedKey) (assocFind params legacyKey))
    envVal

/-- Which route `search_google` takes after resolving credentials. -/
inductive SearchRoute
  | direct (apiKey cx : String)
  | cloud
  | credsError
deriving DecidableEq, Repr

/-- The credential-resolution head of `SearchToolkit.search_google`:
session creds (unified key, then legacy upper-case key) before the
process environment; direct Google search when both `google_api_key` and
`search_engine_id` are truthy, else the cloud proxy when `cloud_api_key`
is truthy, else `ValueError`. -/
def searchGoogleRoute (st : ServerState) (apiTaskId : String)
    (env : SearchEnv) : SearchRoute :=
  let params := getSearchParams st apiTaskId
  let googleApiKey :=
    lookupWithFallback params "google_api_key" "GOOGLE_API_KEY"
      env.google_api_key
  let searchEngineId :=
    lookupWithFallback params "search_engine_id" "SEARCH_ENGINE_ID"
      env.search_engine_id
  let cloudApiKey := pyOrStr (assocFind params "cloud_api_key")
    env.cloud_api_key
  if isTruthy googleApiKey ∧ isTruthy searchEngineId then
    SearchRoute.direct (googleApiKey.getD "") (searchEngineId.getD "")
  else if isTruthy cloudApiKey then SearchRoute.cloud
  else SearchRoute.credsError

/-! ### Concrete fixtures for witnesses and counterexamples -/

/-- A benign background-task set: one task already finished, one that
cancels cleanly when awaited. -/
def benignBg : List BgTask :=
  [⟨true, BgOutcome.raises "never awaited"⟩, ⟨false, BgOutcome.cancels⟩]

/-- A concrete well-behaved session lock. -/
def sampleLock : TaskLock :=
  { id := "s"
    status := Status.processing
    created_at := 0
    last_accessed := 10
    background_tasks := benignBg
    registered_toolkits := [⟨1, "terminal"⟩]
    conversation_history := [⟨"user", "hello", 1⟩, ⟨"assistant", "done", 2⟩]
    last_task_result := "answer"
    file_save_path := some "/data/projects/project_s/task_t"
    creds_params := [("search",
      [("google_api_key", "session-key"), ("search_engine_id", "session-cx")])] }

/-- A concrete server state holding `sampleLock` plus unrelated state. -/
def sampleState : ServerState :=
  { task_locks := [("s", sampleLock)]
    oauth_states := ["s:google", "other:github"]
    fs_dirs :=
      ["/data/projects/project_s/task_t",
       "/data/projects/project_s/task_t/.eigent_credentials",
       "/data/projects/project_s/task_t/camel_logs",
       "/data/projects/project_other"] }

/-- A lock whose (non-done) background task raises an exception other
than the cancellation signal when awaited during cleanup. -/
def badLock : TaskLock :=
  { sampleLock with
    background_tasks := [⟨false, BgOutcome.raises "boom"⟩] }

/-- `sampleState` with `badLock` registered instead. -/
def badState : ServerState :=
  { sampleState with task_locks := [("s", badLock)] }

/-- The prompt part of a generator trace for the idle-timeout scenario:
two Events arrive within the deadline (even though their total exceeds
one hour); afterwards nothing arrives for a full hour. -/
def idlePre : List GenStep :=
  [GenStep.yields 3000 "data: \x7b\"step\": \"notice\", \"data\": \"hi\"\x7d\n\n",
   GenStep.yields 3000 "data: \x7b\"step\": \"notice\", \"data\": \"still\"\x7d\n\n"]

/-- Directories existing when the C7 attachment scenario runs: the data
root and the session working directory (in resolved component form). -/
def c7dirs : List (List String) :=
  [["home", "data"], ["home", "data", "task1"]]

/-- The session working directory of the C7 scenario. -/
def c7root : List String := ["home", "data", "task1"]

/-- The path-traversal attachment of the spec scenario, with decodable
content. -/
def c7attaches : List Attach :=
  [⟨some "../../etc/passwd", some [112, 119]⟩]

/-- A process environment carrying competing Google-search credentials. -/
def c8env : SearchEnv :=
  { google_api_key := some "env-key"
    search_engine_id := some "env-cx"
    cloud_api_key := some "env-cloud" }

/-! ### Helper lemmas about the association-list and filesystem model -/

theorem assocFind_set_self {α : Type} (l : List (String × α)) (k : String)
    (v : α) : assocFind (assocSet l k v) k = some v := by
  induction l with
  | nil => simp [assocSet, assocFind]
  | cons p rest ih =>
    by_cases h : p.1 = k <;> simp [assocSet, assocFind, h, ih]

theorem assocFind_set_ne {α : Type} (l : List (String × α)) (k k' : String)
    (v : α) (h : k' ≠ k) :
    assocFind (assocSet l k v) k' = assocFind l k' := by
  have hks : ¬(k = k') := fun e => h e.symm
  induction l with
  | nil => simp [assocSet, assocFind, hks]
  | cons p rest ih =>
    by_cases hp : p.1 = k
    · simp [assocSet, assocFind, hp, hks]
    · by_cases hp' : p.1 = k' <;>
        simp [assocSet, assocFind, hp, hp', h, hks, ih]

theorem assocFind_erase_self {α : Type} (l : List (String × α))
    (k : String) : assocFind (assocErase l k) k = none := by
  induction l with
  | nil => simp [assocErase, assocFind]
  | cons p rest ih =>
    by_cases h : p.1 = k <;> simp [assocErase, assocFind, h, ih]

theorem assocFind_erase_ne {α : Type} (l : List (String × α))
    (k k' : String) (h : k' ≠ k) :
    assocFind (assocErase l k) k' = assocFind l k' := by
  have hks : ¬(k = k') := fun e => h e.symm
  induction l with
  | nil => simp [assocErase, assocFind]
  | cons p rest ih =>
    by_cases hp : p.1 = k
    · simp [assocErase, assocFind, hp, hks, ih]
    · by_cases hp' : p.1 = k' <;>
        simp [assocErase, assocFind, hp, hp', h, hks, ih]

theorem assocErase_set_self {α : Type} (l : List (String × α)) (k : String)
    (v : α) : assocErase (assocSet l k v) k = assocErase l k := by
  induction l with
  | nil => simp [assocSet, assocErase]
  | cons p rest ih =>
    by_cases h : p.1 = k <;> simp [assocSet, assocErase, h, ih]

theorem mem_of_mem_rmtree {fs : List String} {p d : String}
    (h : d ∈ rmtree fs p) : d ∈ fs :=
  (List.mem_filter.mp h).1

theorem self_not_mem_rmtree (fs : List String) (p : String) :
    p ∉ rmtree fs p := by
  intro h
  have := (List.mem_filter.mp h).2
  simp at this

/-! ### Helper lemmas about the cleanup coordinator -/

theorem cleanup_ok_of_benign (tl : TaskLock)
    (h : firstBgError tl.background_tasks = none) :
    tl.cleanup = Except.ok (cleanedLock tl) := by
  unfold TaskLock.cleanup cleanedLock
  rw [h]

theorem cleanup_error_of_raise (tl : TaskLock) (msg : String)
    (h : firstBgError tl.background_tasks = some msg) :
    tl.cleanup = Except.error msg := by
  unfold TaskLock.cleanup
  rw [h]

theorem clear_project_locks (st : ServerState) (id : String) :
    (clear_project st id).task_locks = st.task_locks := rfl

theorem clear_project_flag (st : ServerState) (id : String) :
    (clear_project st id).cleanup_task_started = st.cleanup_task_started := rfl

theorem clear_project_fs (st : ServerState) (id : String) :
    (clear_project st id).fs_dirs = st.fs_dirs := rfl

theorem ccreds_locks (st : ServerState) (id : String) :
    (cleanup_project_credentials st id).task_locks = st.task_locks := by
  unfold cleanup_project_credentials
  split
  · rfl
  · split
    · rfl
    · split <;> rfl

theorem ccreds_oauth (st : ServerState) (id : String) :
    (cleanup_project_credentials st id).oauth_states = st.oauth_states := by
  unfold cleanup_project_credentials
  split
  · rfl
  · split
    · rfl
    · split <;> rfl

theorem ccreds_flag (st : ServerState) (id : String) :
    (cleanup_project_credentials st id).cleanup_task_started
      = st.cleanup_task_started := by
  unfold cleanup_project_credentials
  split
  · rfl
  · split
    · rfl
    · split <;> rfl

theorem ccreds_fs_sub (st : ServerState) (id : String) (d : String)
    (h : d ∈ (cleanup_project_credentials st id).fs_dirs) :
    d ∈ st.fs_dirs := by
  unfold cleanup_project_credentials at h
  split at h
  · exact h
  · split at h
    · exact h
    · split at h
      · exact mem_of_mem_rmtree h
      · exact h

theorem cpath_locks (st : ServerState) (id : String) :
    (cleanup_file_save_path st id).task_locks = st.task_locks := by
  unfold cleanup_file_save_path
  split
  · rfl
  · split
    · rfl
    · split <;> rfl

theorem cpath_oauth (st : ServerState) (id : String) :
    (cleanup_file_save_path st id).oauth_states = st.oauth_states := by
  unfold cleanup_file_save_path
  split
  · rfl
  · split
    · rfl
    · split <;> rfl

theorem cpath_flag (st : ServerState) (id : String) :
    (cleanup_file_save_path st id).cleanup_task_started
      = st.cleanup_task_started := by
  unfold cleanup_file_save_path
  split
  · rfl
  · split
    · rfl
    · split <;> rfl

theorem cpath_fs_sub (st : ServerState) (id : String) (d : String)
    (h : d ∈ (cleanup_file_save_path st id).fs_dirs) : d ∈ st.fs_dirs := by
  unfold cleanup_file_save_path at h
  split at h
  · exact h
  · split at h
    · exact h
    · split at h
      · exact mem_of_mem_rmtree h
      · exact h

theorem clear_project_oauth (st : ServerState) (id : String) :
    (clear_project st id).oauth_states
      = st.oauth_states.filter (fun k => ¬(id ++ ":").isPrefixOf k) := rfl

theorem deleteFinish_locks (st : ServerState) (id : String) :
    (deleteFinish st id).task_locks = assocErase st.task_locks id := rfl

theorem deleteFinish_oauth (st : ServerState) (id : String) :
    (deleteFinish st id).oauth_states = st.oauth_states := rfl

theorem deleteFinish_flag (st : ServerState) (id : String) :
    (deleteFinish st id).cleanup_task_started = st.cleanup_task_started := rfl

theorem deleteFinish_fs (st : ServerState) (id : String) :
    (deleteFinish st id).fs_dirs = st.fs_dirs := rfl

theorem ccreds_removes (st : ServerState) (id : String) (tl : TaskLock)
    (p : String) (hfind : get_task_lock_if_exists st id = some tl)
    (hp : tl.file_save_path = some p) :
    (p ++ "/.eigent_credentials") ∉
      (cleanup_project_credentials st id).fs_dirs := by
  unfold cleanup_project_credentials
  rw [hfind]
  dsimp only
  rw [hp]
  by_cases hm : (p ++ "/.eigent_credentials") ∈ st.fs_dirs
  · simpa [hm] using self_not_mem_rmtree st.fs_dirs (p ++ "/.eigent_credentials")
  · simp [hm]

theorem cpath_removes (st : ServerState) (id : String) (tl : TaskLock)
    (p : String) (hfind : get_task_lock_if_exists st id = some tl)
    (hp : tl.file_save_path = some p) :
    p ∉ (cleanup_file_save_path st id).fs_dirs := by
  unfold cleanup_file_save_path
  rw [hfind]
  dsimp only
  rw [hp]
  by_cases hm : p ∈ st.fs_dirs
  · simpa [hm] using self_not_mem_rmtree st.fs_dirs p
  · simp [hm]

/-- Structure of a successful `delete_task_lock`: the registry entry is
gone, the project's OAuth state is cleared, and the sweep flag is
untouched. -/
theorem delete_task_lock_ok (st : ServerState) (id : String) (tl : TaskLock)
    (hmem : assocFind st.task_locks id = some tl)
    (hbenign : firstBgError tl.background_tasks = none) :
    ∃ st', delete_task_lock st id = Except.ok st' ∧
      st'.task_locks = assocErase st.task_locks id ∧
      st'.oauth_states
        = st.oauth_states.filter (fun k => ¬(id ++ ":").isPrefixOf k) ∧
      st'.cleanup_task_started = st.cleanup_task_started := by
  have hclean := cleanup_ok_of_benign tl hbenign
  unfold delete_task_lock
  rw [hmem]
  dsimp only
  rw [hclean]
  refine ⟨_, rfl, ?_, ?_, ?_⟩
  · rw [deleteFinish_locks, cpath_locks, ccreds_locks, clear_project_locks]
    exact assocErase_set_self _ _ _
  · rw [deleteFinish_oauth, cpath_oauth, ccreds_oauth, clear_project_oauth]
  · rw [deleteFinish_flag, cpath_flag, ccreds_flag, clear_project_flag]

theorem delete_task_lock_absent (st : ServerState) (id : String)
    (h : assocFind st.task_locks id = none) :
    delete_task_lock st id = Except.error "Task not found" := by
  unfold delete_task_lock
  rw [h]

theorem delete_task_lock_raises (st : ServerState) (id : String)
    (tl : TaskLock) (msg : String)
    (hmem : assocFind st.task_locks id = some tl)
    (hraise : firstBgError tl.background_tasks = some msg) :
    delete_task_lock st id = Except.error msg := by
  unfold delete_task_lock
  rw [hmem]
  dsimp only
  rw [cleanup_error_of_raise tl msg hraise]

/-- A successful `delete_task_lock` leaves neither the working-directory
tree nor the credentials directory in the filesystem. -/
theorem delete_task_lock_fs_removed (st : ServerState) (id : String)
    (tl : TaskLock) (p : String) (st' : ServerState)
    (hmem : assocFind st.task_locks id = some tl)
    (hbenign : firstBgError tl.background_tasks = none)
    (hp : tl.file_save_path = some p)
    (hdel : delete_task_lock st id = Except.ok st') :
    p ∉ st'.fs_dirs ∧ (p ++ "/.eigent_credentials") ∉ st'.fs_dirs := by
  have hclean := cleanup_ok_of_benign tl hbenign
  unfold delete_task_lock at hdel
  rw [hmem] at hdel
  dsimp only at hdel
  rw [hclean] at hdel
  have hst' : st' = deleteFinish
      (cleanup_file_save_path
        (cleanup_project_credentials
          (clear_project
            { st with task_locks := assocSet st.task_locks id (cleanedLock tl) }
            id)
          id)
        id)
      id := by
    cases hdel
    rfl
  subst hst'
  have hpclean : (cleanedLock tl).file_save_path = some p := hp
  have hfind2 : get_task_lock_if_exists
      (clear_project
        { st with task_locks := assocSet st.task_locks id (cleanedLock tl) } id)
      id = some (cleanedLock tl) := by
    unfold get_task_lock_if_exists
    rw [clear_project_locks]
    exact assocFind_set_self _ _ _
  have hfind3 : get_task_lock_if_exists
      (cleanup_project_credentials
        (clear_project
          { st with task_locks := assocSet st.task_locks id (cleanedLock tl) } id)
        id)
      id = some (cleanedLock tl) := by
    unfold get_task_lock_if_exists
    rw [ccreds_locks]
    exact hfind2
  constructor
  · rw [deleteFinish_fs]
    exact cpath_removes _ id _ p hfind3 hpclean
  · rw [deleteFinish_fs]
    intro hmemc
    exact ccreds_removes _ id _ p hfind2 hpclean (cpath_fs_sub _ _ _ hmemc)

theorem mark_find_self (l : List (String × TaskLock)) (id : String) :
    ∀ tl, assocFind l id = some tl →
      assocFind (markStatusDone l id) id
        = some { tl with status := Status.done } := by
  induction l with
  | nil => intro tl h; cases h
  | cons p rest ih =>
    intro tl h
    have hmap : markStatusDone (p :: rest) id
        = (if p.1 = id then (p.1, { p.2 with status := Status.done }) else p)
            :: markStatusDone rest id := rfl
    rw [hmap]
    have hh : (if p.1 = id then some p.2 else assocFind rest id) = some tl := h
    by_cases hp : p.1 = id
    · rw [if_pos hp]
      have hfind : assocFind
          ((p.1, { p.2 with status := Status.done }) :: markStatusDone rest id) id
          = if p.1 = id then some { p.2 with status := Status.done }
            else assocFind (markStatusDone rest id) id := rfl
      rw [hfind, if_pos hp]
      rw [if_pos hp] at hh
      rw [Option.some.inj hh]
    · rw [if_neg hp]
      have hfind : assocFind (p :: markStatusDone rest id) id
          = if p.1 = id then some p.2
            else assocFind (markStatusDone rest id) id := rfl
      rw [hfind, if_neg hp]
      rw [if_neg hp] at hh
      exact ih tl hh

theorem safe_cleanup_present_benign (st : ServerState) (id : String)
    (tl : TaskLock) (hmem : assocFind st.task_locks id = some tl)
    (hbenign : firstBgError tl.background_tasks = none) :
    (cleanup_task_lock_safe st (some id)).performed = true ∧
    assocFind (cleanup_task_lock_safe st (some id)).state.task_locks id
      = none := by
  have hfindM : assocFind (markStatusDone st.task_locks id) id
      = some { tl with status := Status.done } :=
    mark_find_self st.task_locks id tl hmem
  have hbenignM :
      firstBgError ({ tl with status := Status.done } : TaskLock).background_tasks
        = none := hbenign
  obtain ⟨st', hdel, hlocks, _, _⟩ :=
    delete_task_lock_ok
      { st with task_locks := markStatusDone st.task_locks id } id
      { tl with status := Status.done } hfindM hbenignM
  unfold cleanup_task_lock_safe
  dsimp only
  rw [hmem]
  simp only [Option.isNone_some, Bool.false_eq_true, if_false]
  rw [hdel]
  refine ⟨rfl, ?_⟩
  rw [hlocks]
  exact assocFind_erase_self _ _

theorem safe_cleanup_absent (st : ServerState) (id : String)
    (h : assocFind st.task_locks id = none) :
    cleanup_task_lock_safe st (some id) = ⟨st, false⟩ := by
  unfold cleanup_task_lock_safe
  dsimp only
  rw [h]
  rfl

theorem assocFind_of_mem_nodup {α : Type} (l : List (String × α))
    (k : String) (v : α) (hnd : (l.map Prod.fst).Nodup)
    (hmem : (k, v) ∈ l) : assocFind l k = some v := by
  induction l with
  | nil => cases hmem
  | cons p rest ih =>
    have hnd' : (rest.map Prod.fst).Nodup := (List.nodup_cons.mp hnd).2
    rcases List.mem_cons.mp hmem with heq | htail
    · rw [← heq]
      simp [assocFind]
    · have hp1 : p.1 ≠ k := by
        intro he
        have hin : k ∈ rest.map Prod.fst :=
          List.mem_map.mpr ⟨(k, v), htail, rfl⟩
        have hnotin := (List.nodup_cons.mp hnd).1
        rw [he] at hnotin
        exact hnotin hin
      simp [assocFind, hp1, ih hnd' htail]

theorem mem_key_unique {α : Type} (l : List (String × α))
    (hnd : (l.map Prod.fst).Nodup) (p q : String × α)
    (hp : p ∈ l) (hq : q ∈ l) (hk : q.1 = p.1) : q = p := by
  have h1 := assocFind_of_mem_nodup l p.1 p.2 hnd hp
  have h2 := assocFind_of_mem_nodup l q.1 q.2 hnd hq
  rw [hk, h1] at h2
  have hv : p.2 = q.2 := Option.some.inj h2
  cases p
  cases q
  simp only at hk hv
  rw [hk, hv]

theorem assocErase_eq_filter {α : Type} (l : List (String × α))
    (k : String) :
    assocErase l k = l.filter (fun p => p.1 ≠ k) := by
  induction l with
  | nil => rfl
  | cons p rest ih =>
    by_cases h : p.1 = k <;> simp [assocErase, List.filter, h, ih]

theorem sweepDelete_locks (ids : List String) (st : ServerState)
    (hnd : ids.Nodup)
    (h : ∀ id ∈ ids, ∃ tl, assocFind st.task_locks id = some tl ∧
      firstBgError tl.background_tasks = none) :
    (sweepDelete ids st).task_locks
      = st.task_locks.filter (fun p => p.1 ∉ ids) := by
  induction ids generalizing st with
  | nil => simp [sweepDelete]
  | cons id rest ih =>
    obtain ⟨tl, hmem, hbenign⟩ := h id (List.mem_cons_self id rest)
    obtain ⟨st', hdel, hlocks, _, _⟩ := delete_task_lock_ok st id tl hmem hbenign
    unfold sweepDelete
    rw [hdel]
    have hrest : ∀ id' ∈ rest, ∃ tl',
        assocFind st'.task_locks id' = some tl' ∧
        firstBgError tl'.background_tasks = none := by
      intro id' hid'
      obtain ⟨tl', hm', hb'⟩ := h id' (List.mem_cons_of_mem _ hid')
      have hne : id' ≠ id := by
        intro he
        rw [he] at hid'
        exact (List.nodup_cons.mp hnd).1 hid'
      refine ⟨tl', ?_, hb'⟩
      rw [hlocks, assocFind_erase_ne _ _ _ hne]
      exact hm'
    rw [ih st' (List.nodup_cons.mp hnd).2 hrest, hlocks,
      assocErase_eq_filter, List.filter_filter]
    apply List.filter_congr
    intro x _
    by_cases h1 : x.1 = id <;> by_cases h2 : x.1 ∈ rest <;>
      simp [h1, h2, List.mem_cons]

theorem get_task_lock_found (st : ServerState) (id : String) (tl : TaskLock)
    (h : assocFind st.task_locks id = some tl) :
    get_task_lock st id = Except.ok tl := by
  unfold get_task_lock
  rw [h]

theorem get_task_lock_missing (st : ServerState) (id : String)
    (h : assocFind st.task_locks id = none) :
    get_task_lock st id = Except.error "Task not found" := by
  unfold get_task_lock
  rw [h]

theorem resolveComps_append (xs : List String) (c : String) :
    resolveComps (xs ++ [c]) =
      if c = "" ∨ c = "." then resolveComps xs
      else if c = ".." then (resolveComps xs).dropLast
      else resolveComps xs ++ [c] := by
  unfold resolveComps
  rw [List.foldl_append]
  rfl

/-! ### Claim theorems -/

/-- C2, counterexample: in `TaskLock.cleanup` only `asyncio.CancelledError`
is caught around `await task`; a cancelled background task that raises any
other exception (here `"boom"`) makes `cleanup` — and hence
`delete_task_lock` — propagate it, so the remaining teardown steps are
skipped: the safe wrapper reports `False`, the registry entry survives,
and no filesystem state is removed, contradicting the claim that such an
exception is logged and not propagated with teardown running to
completion. -/
theorem c2_bg_exception_aborts_teardown_cex :
    TaskLock.cleanup badLock = Except.error "boom" ∧
    delete_task_lock badState "s" = Except.error "boom" ∧
    (cleanup_task_lock_safe badState (some "s")).performed = false ∧
    (assocFind (cleanup_task_lock_safe badState (some "s")).state.task_locks
      "s").isSome = true ∧
    (cleanup_task_lock_safe badState (some "s")).state.fs_dirs
      = badState.fs_dirs ∧
    (cleanup_task_lock_safe badState (some "s")).state.oauth_states
      = badState.oauth_states :=
  ⟨rfl, rfl, rfl, rfl, rfl, rfl⟩

/-- C2 (amended): during teardown every non-done tracked background task
is cancelled and awaited and the expected cancellation signal is ignored;
when no awaited task raises anything else, teardown runs to completion —
the registry entry is removed, the project's OAuth state is cleared, and
the credentials directory and working-directory tree are removed. But an
exception other than the cancellation signal raised by an awaited task
propagates out of `cleanup`, aborting the remaining teardown steps (only
the outer safe wrapper catches and logs it). -/
theorem c2_cleanup_exception_policy (st : ServerState) (id : String)
    (tl : TaskLock) (hmem : assocFind st.task_locks id = some tl) :
    (firstBgError tl.background_tasks = none →
      ∃ st', delete_task_lock st id = Except.ok st' ∧
        assocFind st'.task_locks id = none ∧
        st'.oauth_states
          = st.oauth_states.filter (fun k => ¬(id ++ ":").isPrefixOf k) ∧
        (∀ p, tl.file_save_path = some p →
          p ∉ st'.fs_dirs ∧ (p ++ "/.eigent_credentials") ∉ st'.fs_dirs)) ∧
    (∀ msg, firstBgError tl.background_tasks = some msg →
      delete_task_lock st id = Except.error msg) := by
  constructor
  · intro hbenign
    obtain ⟨st', hdel, hlocks, hoauth, _⟩ :=
      delete_task_lock_ok st id tl hmem hbenign
    refine ⟨st', hdel, ?_, hoauth, ?_⟩
    · rw [hlocks]
      exact assocFind_erase_self _ _
    · intro p hp
      exact delete_task_lock_fs_removed st id tl p st' hmem hbenign hp hdel
  · intro msg hraise
    exact delete_task_lock_raises st id tl msg hmem hraise

/-- Witness for C2's amended theorem at `sampleState`/`sampleLock` (whose
background tasks are benign: one already done, one cancelling cleanly). -/
theorem c2_cleanup_exception_policy_witness :
    (firstBgError sampleLock.background_tasks = none →
      ∃ st', delete_task_lock sampleState "s" = Except.ok st' ∧
        assocFind st'.task_locks "s" = none ∧
        st'.oauth_states
          = sampleState.oauth_states.filter
              (fun k => ¬("s" ++ ":").isPrefixOf k) ∧
        (∀ p, sampleLock.file_save_path = some p →
          p ∉ st'.fs_dirs ∧ (p ++ "/.eigent_credentials") ∉ st'.fs_dirs)) ∧
    (∀ msg, firstBgError sampleLock.background_tasks = some msg →
      delete_task_lock sampleState "s" = Except.error msg) :=
  c2_cleanup_exception_policy sampleState "s" sampleLock rfl

/-- C3, counterexample: `delete_task_lock` is not idempotent — after a
first successful delete of session `"s"`, a second direct invocation
raises `ProgramException("Task not found")` rather than being a no-op. -/
theorem c3_delete_twice_raises_cex :
    ((delete_task_lock sampleState "s").toOption.isSome = true) ∧
    (delete_task_lock sampleState "s").toOption.map
        (fun st' => delete_task_lock st' "s")
      = some (Except.error "Task not found") :=
  ⟨rfl, rfl⟩

/-- C3 (amended): the safe cleanup path used by the SSE pipeline is
idempotent — the first invocation performs the teardown and removes the
registry entry, and a second invocation against the now-absent entry is a
no-op (state unchanged, returns `False`, never raises, deletes no
filesystem state); direct `delete_task_lock` on the already-deleted id,
by contrast, raises `ProgramException("Task not found")`. -/
theorem c3_safe_cleanup_idempotent (st : ServerState) (id : String)
    (tl : TaskLock) (hmem : assocFind st.task_locks id = some tl)
    (hbenign : firstBgError tl.background_tasks = none) :
    (cleanup_task_lock_safe st (some id)).performed = true ∧
    assocFind (cleanup_task_lock_safe st (some id)).state.task_locks id
      = none ∧
    cleanup_task_lock_safe (cleanup_task_lock_safe st (some id)).state
        (some id)
      = ⟨(cleanup_task_lock_safe st (some id)).state, false⟩ ∧
    delete_task_lock (cleanup_task_lock_safe st (some id)).state id
      = Except.error "Task not found" := by
  obtain ⟨hperf, hnone⟩ := safe_cleanup_present_benign st id tl hmem hbenign
  exact ⟨hperf, hnone, safe_cleanup_absent _ id hnone,
    delete_task_lock_absent _ id hnone⟩

/-- C4: `POST /chat/{id}` (improve) with a session id that has no
registry entry fails with the task-not-found error, surfaced to the HTTP
caller as a 404 response with the controller's detail text, and leaves
the server state untouched. -/
theorem c4_improve_unknown_session_404 (st : ServerState) (id : String)
    (data : SupplementChat) (dataDir : String) (now : Nat)
    (h : assocFind st.task_locks id = none) :
    (improve st id data dataDir now).1
      = HttpOutcome.httpError 404 ("Task " ++ id ++ " not found") ∧
    (improve st id data dataDir now).2 = st := by
  unfold improve
  rw [get_task_lock_missing st id h]
  exact ⟨rfl, rfl⟩

/-- Witness for C4 on the empty registry. -/
theorem c4_improve_unknown_session_404_witness :
    (improve {} "ghost" ⟨"more", none⟩ "/srv" 7).1
      = HttpOutcome.httpError 404 ("Task " ++ "ghost" ++ " not found") ∧
    (improve {} "ghost" ⟨"more", none⟩ "/srv" 7).2 = ({} : ServerState) :=
  c4_improve_unknown_session_404 {} "ghost" ⟨"more", none⟩ "/srv" 7 rfl

/-- C5: `POST /chat/{id}` (improve) on a session whose status is `done`
answers 201 and leaves the session with status `confirming`, while
`conversation_history` and `last_task_result` are unchanged in content
and length. -/
theorem c5_improve_done_preserves_context (st : ServerState) (id : String)
    (tl : TaskLock) (data : SupplementChat) (dataDir : String) (now : Nat)
    (hmem : assocFind st.task_locks id = some tl)
    (hdone : tl.status = Status.done) :
    (improve st id data dataDir now).1 = HttpOutcome.ok 201 ∧
    ∃ tl', assocFind (improve st id data dataDir now).2.task_locks id
        = some tl' ∧
      tl'.status = Status.confirming ∧
      tl'.conversation_history = tl.conversation_history ∧
      tl'.last_task_result = tl.last_task_result ∧
      tl'.conversation_history.length = tl.conversation_history.length ∧
      tl'.last_task_result.length = tl.last_task_result.length := by
  unfold improve
  rw [get_task_lock_found st id tl hmem]
  dsimp only
  rw [if_pos hdone]
  cases htid : data.task_id with
  | none =>
    dsimp only
    exact ⟨rfl, _, assocFind_set_self _ _ _, rfl, rfl, rfl, rfl, rfl⟩
  | some t =>
    dsimp only
    exact ⟨rfl, _, assocFind_set_self _ _ _, rfl, rfl, rfl, rfl, rfl⟩

/-- Witness for C5 at `sampleState` with the lock forced to `done`. -/
theorem c5_improve_done_preserves_context_witness :
    (improve
        { sampleState with
          task_locks := [("s", { sampleLock with status := Status.done })] }
        "s" ⟨"again", some "t2"⟩ "/srv" 99).1 = HttpOutcome.ok 201 ∧
    ∃ tl', assocFind
        (improve
          { sampleState with
            task_locks := [("s", { sampleLock with status := Status.done })] }
          "s" ⟨"again", some "t2"⟩ "/srv" 99).2.task_locks "s" = some tl' ∧
      tl'.status = Status.confirming ∧
      tl'.conversation_history
        = ({ sampleLock with status := Status.done } : TaskLock).conversation_history ∧
      tl'.last_task_result
        = ({ sampleLock with status := Status.done } : TaskLock).last_task_result ∧
      tl'.conversation_history.length
        = ({ sampleLock with status := Status.done } : TaskLock).conversation_history.length ∧
      tl'.last_task_result.length
        = ({ sampleLock with status := Status.done } : TaskLock).last_task_result.length :=
  c5_improve_done_preserves_context
    { sampleState with
      task_locks := [("s", { sampleLock with status := Status.done })] }
    "s" { sampleLock with status := Status.done } ⟨"again", some "t2"⟩
    "/srv" 99 rfl rfl

/-- C9: `register_toolkit` is idempotent up to object identity —
registering the same instance twice leaves exactly one entry (the second
call is a no-op), while registering a distinct instance (even one with
equal contents) appends a new entry. -/
theorem c9_register_toolkit_identity (tl : TaskLock) (t u : Toolkit)
    (hfresh : ∀ r ∈ tl.registered_toolkits, r.objId ≠ t.objId)
    (hufresh : ∀ r ∈ tl.registered_toolkits, r.objId ≠ u.objId)
    (hu : u.objId ≠ t.objId) :
    ((tl.register_toolkit t).register_toolkit t).registered_toolkits
      = tl.registered_toolkits ++ [t] ∧
    (tl.register_toolkit t).register_toolkit t = tl.register_toolkit t ∧
    (((tl.register_toolkit t).register_toolkit t).registered_toolkits.filter
        (fun r => r.objId = t.objId)).length = 1 ∧
    ((tl.register_toolkit t).register_toolkit u).registered_toolkits
      = tl.registered_toolkits ++ [t, u] := by
  have hanyt : tl.registered_toolkits.any (fun r => r.objId = t.objId)
      = false := by
    rw [List.any_eq_false]
    intro r hr
    simpa using hfresh r hr
  have hreg1 : tl.register_toolkit t
      = { tl with registered_toolkits := tl.registered_toolkits ++ [t] } := by
    unfold TaskLock.register_toolkit
    rw [hanyt]
    rfl
  have hany2 : ((tl.registered_toolkits ++ [t]).any
      (fun r => r.objId = t.objId)) = true := by
    rw [List.any_eq_true]
    exact ⟨t, by simp⟩
  have hreg2 : (tl.register_toolkit t).register_toolkit t
      = tl.register_toolkit t := by
    rw [hreg1]
    unfold TaskLock.register_toolkit
    rw [hany2]
    rfl
  have hanyu : ((tl.registered_toolkits ++ [t]).any
      (fun r => r.objId = u.objId)) = false := by
    rw [List.any_eq_false]
    intro r hr
    rcases List.mem_append.mp hr with hl | hone
    · simpa using hufresh r hl
    · have : r = t := by simpa using hone
      rw [this]
      simpa using fun he => hu he.symm
  have hregu : (tl.register_toolkit t).register_toolkit u
      = { tl with registered_toolkits := (tl.registered_toolkits ++ [t]) ++ [u] } := by
    rw [hreg1]
    unfold TaskLock.register_toolkit
    rw [hanyu]
    rfl
  refine ⟨?_, hreg2, ?_, ?_⟩
  · rw [hreg2, hreg1]
  · rw [hreg2, hreg1]
    show ((tl.registered_toolkits ++ [t]).filter
      (fun r => r.objId = t.objId)).length = 1
    rw [List.filter_append]
    have hleft : tl.registered_toolkits.filter (fun r => r.objId = t.objId)
        = [] := by
      rw [List.filter_eq_nil_iff]
      intro r hr
      simpa using hfresh r hr
    rw [hleft]
    simp
  · rw [hregu]
    simp

/-- Witness for C9: a fresh lock, the same instance registered twice,
then a distinct instance with identical contents. -/
theorem c9_register_toolkit_identity_witness :
    (((TaskLock.init "w" 0).register_toolkit ⟨1, "terminal"⟩).register_toolkit
        ⟨1, "terminal"⟩).registered_toolkits
      = (TaskLock.init "w" 0).registered_toolkits ++ [⟨1, "terminal"⟩] ∧
    ((TaskLock.init "w" 0).register_toolkit ⟨1, "terminal"⟩).register_toolkit
        ⟨1, "terminal"⟩
      = (TaskLock.init "w" 0).register_toolkit ⟨1, "terminal"⟩ ∧
    ((((TaskLock.init "w" 0).register_toolkit ⟨1, "terminal"⟩).register_toolkit
        ⟨1, "terminal"⟩).registered_toolkits.filter
        (fun r => r.objId = (⟨1, "terminal"⟩ : Toolkit).objId)).length = 1 ∧
    (((TaskLock.init "w" 0).register_toolkit ⟨1, "terminal"⟩).register_toolkit
        ⟨2, "terminal"⟩).registered_toolkits
      = (TaskLock.init "w" 0).registered_toolkits
          ++ [⟨1, "terminal"⟩, ⟨2, "terminal"⟩] :=
  c9_register_toolkit_identity (TaskLock.init "w" 0) ⟨1, "terminal"⟩
    ⟨2, "terminal"⟩ (by intro r hr; cases hr) (by intro r hr; cases hr)
    (by decide)

/-- C10: `put_human_input`/`get_human_input` index the `human_input`
mapping with no default, and an agent's capacity-1 channel exists only
after `add_human_input_listen`; hence `POST /chat/{id}/human-reply` for
an agent with no registered listener raises `KeyError` out of the handler
(it is neither a no-op nor a domain error), a fresh lock has no channels
at all, and after `add_human_input_listen` the same delivery succeeds. -/
theorem c10_human_reply_no_listener_keyerror (st : ServerState)
    (id : String) (tl : TaskLock) (agent reply : String)
    (hmem : assocFind st.task_locks id = some tl)
    (hnolisten : assocFind tl.human_input agent = none) :
    human_reply st id agent reply = (HttpOutcome.raised "KeyError", st) ∧
    tl.put_human_input agent reply = HumanPutResult.keyError ∧
    tl.get_human_input agent = HumanGetResult.keyError ∧
    (∀ i n, (TaskLock.init i n).human_input = []) ∧
    (tl.add_human_input_listen agent).put_human_input agent reply
      = HumanPutResult.delivered
          { tl with human_input :=
              (assocSet (assocSet tl.human_input agent []) agent [reply]) } := by
  have hput : tl.put_human_input agent reply = HumanPutResult.keyError := by
    unfold TaskLock.put_human_input
    rw [hnolisten]
  have hget : tl.get_human_input agent = HumanGetResult.keyError := by
    unfold TaskLock.get_human_input
    rw [hnolisten]
  refine ⟨?_, hput, hget, fun i n => rfl, ?_⟩
  · unfold human_reply
    rw [get_task_lock_found st id tl hmem]
    dsimp only
    rw [hput]
  · unfold TaskLock.put_human_input TaskLock.add_human_input_listen
    dsimp only
    rw [assocFind_set_self]
    simp

/-- Witness for C10: `sampleLock` has no human-input channels. -/
theorem c10_human_reply_no_listener_keyerror_witness :
    human_reply sampleState "s" "browser_agent" "yes"
      = (HttpOutcome.raised "KeyError", sampleState) ∧
    sampleLock.put_human_input "browser_agent" "yes"
      = HumanPutResult.keyError ∧
    sampleLock.get_human_input "browser_agent" = HumanGetResult.keyError ∧
    (∀ i n, (TaskLock.init i n).human_input = []) ∧
    (sampleLock.add_human_input_listen "browser_agent").put_human_input
        "browser_agent" "yes"
      = HumanPutResult.delivered
          { sampleLock with human_input :=
              (assocSet (assocSet sampleLock.human_input "browser_agent" [])
                "browser_agent" ["yes"]) } :=
  c10_human_reply_no_listener_keyerror sampleState "s" sampleLock
    "browser_agent" "yes" rfl rfl

/-- Witness for C3's amended theorem at `sampleState`. -/
theorem c3_safe_cleanup_idempotent_witness :
    (cleanup_task_lock_safe sampleState (some "s")).performed = true ∧
    assocFind
        (cleanup_task_lock_safe sampleState (some "s")).state.task_locks "s"
      = none ∧
    cleanup_task_lock_safe
        (cleanup_task_lock_safe sampleState (some "s")).state (some "s")
      = ⟨(cleanup_task_lock_safe sampleState (some "s")).state, false⟩ ∧
    delete_task_lock (cleanup_task_lock_safe sampleState (some "s")).state "s"
      = Except.error "Task not found" :=
  c3_safe_cleanup_idempotent sampleState "s" sampleLock rfl rfl

/-- C1: if the stream delivers Events promptly (each within the 3600 s
idle deadline, measured from the previous Event — regardless of total
stream duration) and then no Event arrives for 3600 s, the wrapper emits
the already-delivered frames followed by exactly one synthetic timeout
error Event, invokes the safe session cleanup exactly once — after which
the session id is gone from the registry — and terminates the stream
normally (not as an error). The session's background tasks are assumed to
tear down cleanly (each already done or cancelling cleanly); a task that
misbehaves there is the subject of C2. -/
theorem c1_sse_idle_timeout (st : ServerState) (id : String) (tl : TaskLock)
    (d : Nat) (s : String) (rest : List GenStep)
    (hmem : assocFind st.task_locks id = some tl)
    (hbenign : firstBgError tl.background_tasks = none)
    (hd : SSE_TIMEOUT_SECONDS ≤ d) :
    ∀ pre : List GenStep,
      (∀ g ∈ pre, ∃ d' s', g = GenStep.yields d' s' ∧
        d' < SSE_TIMEOUT_SECONDS) →
      (runTimeoutStream SSE_TIMEOUT_SECONDS
          (pre ++ GenStep.yields d s :: rest) st (some id)).emitted
        = pre.map genStepData ++ [timeoutEvent SSE_TIMEOUT_SECONDS] ∧
      (runTimeoutStream SSE_TIMEOUT_SECONDS
          (pre ++ GenStep.yields d s :: rest) st (some id)).cleanupCalls
        = 1 ∧
      assocFind (runTimeoutStream SSE_TIMEOUT_SECONDS
          (pre ++ GenStep.yields d s :: rest) st
          (some id)).state.task_locks id = none ∧
      (runTimeoutStream SSE_TIMEOUT_SECONDS
          (pre ++ GenStep.yields d s :: rest) st (some id)).termination
        = Termination.normal := by
  intro pre
  induction pre with
  | nil =>
    intro _
    obtain ⟨hperf, hnone⟩ := safe_cleanup_present_benign st id tl hmem hbenign
    rw [List.nil_append]
    unfold runTimeoutStream
    rw [if_pos hd]
    exact ⟨rfl, rfl, hnone, rfl⟩
  | cons g pre ih =>
    intro hpre
    obtain ⟨d', s', hg, hd'⟩ := hpre g (List.mem_cons_self g pre)
    subst hg
    obtain ⟨h1, h2, h3, h4⟩ := ih (fun g hg => hpre g (List.mem_cons_of_mem _ hg))
    rw [List.cons_append]
    unfold runTimeoutStream
    rw [if_neg (by omega : ¬ SSE_TIMEOUT_SECONDS ≤ d')]
    refine ⟨?_, h2, h3, h4⟩
    rw [List.map_cons, List.cons_append]
    show s' :: (runTimeoutStream SSE_TIMEOUT_SECONDS
      (pre ++ GenStep.yields d s :: rest) st (some id)).emitted
      = genStepData (GenStep.yields d' s') :: (pre.map genStepData
          ++ [timeoutEvent SSE_TIMEOUT_SECONDS])
    rw [h1]
    rfl

/-- Witness for C1: `idlePre` (two prompt Events, then an hour of
silence) against `sampleState`. -/
theorem c1_sse_idle_timeout_witness :
    (runTimeoutStream SSE_TIMEOUT_SECONDS
        (idlePre ++ GenStep.yields 3600 "never delivered" :: [])
        sampleState (some "s")).emitted
      = idlePre.map genStepData ++ [timeoutEvent SSE_TIMEOUT_SECONDS] ∧
    (runTimeoutStream SSE_TIMEOUT_SECONDS
        (idlePre ++ GenStep.yields 3600 "never delivered" :: [])
        sampleState (some "s")).cleanupCalls = 1 ∧
    assocFind (runTimeoutStream SSE_TIMEOUT_SECONDS
        (idlePre ++ GenStep.yields 3600 "never delivered" :: [])
        sampleState (some "s")).state.task_locks "s" = none ∧
    (runTimeoutStream SSE_TIMEOUT_SECONDS
        (idlePre ++ GenStep.yields 3600 "never delivered" :: [])
        sampleState (some "s")).termination
      = Termination.normal :=
  c1_sse_idle_timeout sampleState "s" sampleLock 3600 "never delivered" []
    rfl rfl (by decide) idlePre
    (by
      intro g hg
      simp only [idlePre, List.mem_cons, List.not_mem_nil, or_false] at hg
      rcases hg with h | h
      · exact ⟨3000, _, by rw [h], by decide⟩
      · exact ⟨3000, _, by rw [h], by decide⟩)

/-- C6, counterexample: no recurring staleness sweep is ever started — the
module global `_cleanup_task` is `None` at import and the block of
`create_task_lock` that would launch `_periodic_cleanup` is commented out
in the source, so after creating a session (the cited trigger point) no
sweep task is running. -/
theorem c6_sweep_not_started_cex :
    ({} : ServerState).cleanup_task_started = false ∧
    (create_task_lock {} "s" 0).toOption.map ServerState.cleanup_task_started
      = some false ∧
    (get_or_create_task_lock {} "s" 0).2.cleanup_task_started = false :=
  ⟨rfl, rfl, rfl⟩

/-- C6 (amended): `_periodic_cleanup`'s sweep body, when run, computes
`now - last_accessed` for every registered session and runs full teardown
(`delete_task_lock`) for exactly those idle strictly longer than the fixed
4-hour staleness threshold (assuming distinct registry keys and
well-behaved background tasks), and its wake interval is the fixed 300
seconds; but `create_task_lock` never starts the sweep (the launch is
commented out), so the sweep never actually recurs. -/
theorem c6_staleness_sweep_behavior (st : ServerState) (now : Nat)
    (hnd : (st.task_locks.map Prod.fst).Nodup)
    (hbenign : ∀ p ∈ st.task_locks,
      firstBgError p.2.background_tasks = none) :
    (periodic_cleanup_sweep st now).task_locks
      = st.task_locks.filter (fun p => ¬ isStale now p.2) ∧
    (∀ id nowc st', create_task_lock st id nowc = Except.ok st' →
      st'.cleanup_task_started = st.cleanup_task_started) ∧
    STALE_TIMEOUT_SECONDS = 4 * 60 * 60 ∧
    CLEANUP_INTERVAL_SECONDS = 300 := by
  have hstale : ∀ id' ∈ (st.task_locks.filter
      (fun p => isStale now p.2)).map Prod.fst,
      ∃ tl, assocFind st.task_locks id' = some tl ∧
        firstBgError tl.background_tasks = none := by
    intro id' hid
    obtain ⟨p, hpmem, hpid⟩ := List.mem_map.mp hid
    have hpl := (List.mem_filter.mp hpmem).1
    refine ⟨p.2, ?_, hbenign p hpl⟩
    rw [← hpid]
    exact assocFind_of_mem_nodup st.task_locks p.1 p.2 hnd hpl
  have hndstale : (((st.task_locks.filter
      (fun p => isStale now p.2)).map Prod.fst)).Nodup :=
    List.Nodup.sublist (List.Sublist.map _ (List.filter_sublist _)) hnd
  refine ⟨?_, ?_, rfl, rfl⟩
  · unfold periodic_cleanup_sweep
    rw [sweepDelete_locks _ _ hndstale hstale]
    apply List.filter_congr
    intro p hp
    by_cases hs : isStale now p.2
    · have hin : p.1 ∈ (st.task_locks.filter
          (fun p => isStale now p.2)).map Prod.fst :=
        List.mem_map.mpr ⟨p, List.mem_filter.mpr ⟨hp, by simpa using hs⟩, rfl⟩
      simp [hs, hin]
    · have hnotin : p.1 ∉ (st.task_locks.filter
          (fun p => isStale now p.2)).map Prod.fst := by
        intro hin
        obtain ⟨q, hq, hqid⟩ := List.mem_map.mp hin
        obtain ⟨hql, hqs⟩ := List.mem_filter.mp hq
        have hpq := mem_key_unique st.task_locks hnd p q hp hql hqid
        rw [hpq] at hqs
        exact hs (by simpa using hqs)
      simp [hs, hnotin]
  · intro id nowc st' h
    unfold create_task_lock at h
    by_cases hex : (assocFind st.task_locks id).isSome
    · rw [if_pos hex] at h
      cases h
    · rw [if_neg hex] at h
      cases h
      rfl

/-- Witness for C6's amended theorem: one fresh and one stale session,
both benign; the sweep deletes exactly the stale one. -/
theorem c6_staleness_sweep_behavior_witness :
    (periodic_cleanup_sweep
        { task_locks := [("fresh", TaskLock.init "fresh" 20000),
                         ("stale", TaskLock.init "stale" 0)] }
        20001).task_locks
      = List.filter (fun p => ¬ isStale 20001 p.2)
          [("fresh", TaskLock.init "fresh" 20000),
           ("stale", TaskLock.init "stale" 0)] ∧
    (∀ id nowc st', create_task_lock
        { task_locks := [("fresh", TaskLock.init "fresh" 20000),
                         ("stale", TaskLock.init "stale" 0)] }
        id nowc = Except.ok st' →
      st'.cleanup_task_started
        = ({ task_locks := [("fresh", TaskLock.init "fresh" 20000),
                            ("stale", TaskLock.init "stale" 0)] }
            : ServerState).cleanup_task_started) ∧
    STALE_TIMEOUT_SECONDS = 4 * 60 * 60 ∧
    CLEANUP_INTERVAL_SECONDS = 300 :=
  c6_staleness_sweep_behavior
    { task_locks := [("fresh", TaskLock.init "fresh" 20000),
                     ("stale", TaskLock.init "stale" 0)] }
    20001 (by decide)
    (by
      intro p hp
      rcases List.mem_cons.mp hp with h | h
      · rw [h]; rfl
      · rcases List.mem_cons.mp h with h' | h'
        · rw [h']; rfl
        · cases h')

/-- C7: every attachment file the start-chat handler actually writes lands
at (working directory)/`Path(name).name`, and because the name is cut to
its basename the resolved path lies strictly inside the session working
directory — never outside it — even for a traversal name such as
`"../../etc/passwd"`; writes whose basename degenerates to `""` or `".."`
hit an existing directory and are skipped by the handler's per-attachment
exception guard. Hypotheses: the working directory is in resolved form
and both it and its parent exist. -/
theorem c7_attachments_resolve_inside_workdir
    (dirs : List (List String)) (rootParts : List String)
    (attaches : List Attach)
    (hres : resolveComps rootParts = rootParts)
    (hroot : rootParts ∈ dirs)
    (hparent : rootParts.dropLast ∈ dirs) :
    ∀ p ∈ saveAttachments dirs rootParts attaches,
      strictlyInside rootParts (resolveComps p) := by
  induction attaches with
  | nil =>
    intro p hp
    cases hp
  | cons a rest ih =>
    intro p hp
    unfold saveAttachments at hp
    cases hsave : trySaveAttachment dirs rootParts a with
    | none =>
      rw [hsave] at hp
      exact ih p hp
    | some tgt =>
      rw [hsave] at hp
      rcases List.mem_cons.mp hp with heq | htail
      · subst heq
        unfold trySaveAttachment at hsave
        cases hn : a.name with
        | none =>
          rw [hn] at hsave
          cases hsave
        | some n =>
          cases hc : a.content with
          | none =>
            rw [hn, hc] at hsave
            cases hsave
          | some bytes =>
            rw [hn, hc] at hsave
            dsimp only at hsave
            by_cases hne : n = ""
            · rw [if_pos hne] at hsave
              cases hsave
            · rw [if_neg hne] at hsave
              by_cases hmem :
                  resolveComps (rootParts ++ [pyPathName n]) ∈ dirs
              · rw [if_pos hmem] at hsave
                cases hsave
              · rw [if_neg hmem] at hsave
                have htgt : p = rootParts ++ [pyPathName n] :=
                  (Option.some.inj hsave).symm
                subst htgt
                rw [resolveComps_append] at hmem ⊢
                by_cases h1 : pyPathName n = "" ∨ pyPathName n = "."
                · rw [if_pos h1] at hmem
                  rw [hres] at hmem
                  exact absurd hroot hmem
                · rw [if_neg h1] at hmem
                  by_cases h2 : pyPathName n = ".."
                  · rw [if_pos h2] at hmem
                    rw [hres] at hmem
                    exact absurd hparent hmem
                  · rw [if_neg h1, if_neg h2]
                    rw [if_neg h2] at hmem
                    rw [hres]
                    exact ⟨[pyPathName n], by simp, rfl⟩
      · exact ih p htail

/-- Witness for C7: the spec's traversal scenario — the written path is
exactly (working dir)/`passwd`, strictly inside the working directory. -/
theorem c7_attachments_resolve_inside_workdir_witness :
    saveAttachments c7dirs c7root c7attaches
      = [["home", "data", "task1", "passwd"]] ∧
    ∀ p ∈ saveAttachments c7dirs c7root c7attaches,
      strictlyInside c7root (resolveComps p) :=
  ⟨rfl, c7_attachments_resolve_inside_workdir c7dirs c7root c7attaches
    rfl (by decide) (by decide)⟩

/-- C8: when the session's `creds_params["search"]` carries non-empty
unified credentials, `search_google` uses them — the process environment
is ignored no matter what it holds; and in general the chain
`params.get(unified) or params.get(legacy) or os.getenv(...)` consults
the session dictionary first, then the session legacy key, and the
environment only when both session entries are absent or falsy. -/
theorem c8_session_credentials_over_env (st : ServerState) (id : String)
    (tl : TaskLock) (params : List (String × String)) (k cx : String)
    (env : SearchEnv)
    (hmem : assocFind st.task_locks id = some tl)
    (hcreds : assocFind tl.creds_params "search" = some params)
    (hk : assocFind params "google_api_key" = some k) (hkne : k ≠ "")
    (hcx : assocFind params "search_engine_id" = some cx)
    (hcxne : cx ≠ "") :
    searchGoogleRoute st id env = SearchRoute.direct k cx ∧
    (∀ ps uk lk ev v, assocFind ps uk = some v → v ≠ "" →
      lookupWithFallback ps uk lk ev = some v) ∧
    (∀ ps uk lk ev v, isTruthy (assocFind ps uk) = false →
      assocFind ps lk = some v → v ≠ "" →
      lookupWithFallback ps uk lk ev = some v) ∧
    (∀ ps uk lk ev, isTruthy (assocFind ps uk) = false →
      isTruthy (assocFind ps lk) = false →
      lookupWithFallback ps uk lk ev = ev) := by
  have hfirst : ∀ (ps : List (String × String)) (uk lk : String)
      (ev : Option String) (v : String), assocFind ps uk = some v → v ≠ "" →
      lookupWithFallback ps uk lk ev = some v := by
    intro ps uk lk ev v hv hvne
    unfold lookupWithFallback pyOrStr isTruthy
    rw [hv]
    simp [hvne]
  have hsecond : ∀ (ps : List (String × String)) (uk lk : String)
      (ev : Option String) (v : String), isTruthy (assocFind ps uk) = false →
      assocFind ps lk = some v → v ≠ "" →
      lookupWithFallback ps uk lk ev = some v := by
    intro ps uk lk ev v hu hv hvne
    unfold lookupWithFallback pyOrStr
    rw [hv, hu]
    simp [isTruthy, hvne]
  have hthird : ∀ (ps : List (String × String)) (uk lk : String)
      (ev : Option String), isTruthy (assocFind ps uk) = false →
      isTruthy (assocFind ps lk) = false →
      lookupWithFallback ps uk lk ev = ev := by
    intro ps uk lk ev hu hl
    unfold lookupWithFallback pyOrStr
    simp [hu, hl]
  refine ⟨?_, hfirst, hsecond, hthird⟩
  have hparams : getSearchParams st id = params := by
    unfold getSearchParams get_task_lock_if_exists
    rw [hmem]
    dsimp only
    rw [hcreds]
    rfl
  unfold searchGoogleRoute
  rw [hparams]
  dsimp only
  rw [hfirst params "google_api_key" "GOOGLE_API_KEY"
      env.google_api_key k hk hkne,
    hfirst params "search_engine_id" "SEARCH_ENGINE_ID"
      env.search_engine_id cx hcx hcxne]
  simp [isTruthy, hkne, hcxne]

/-- Witness for C8: `sampleLock` carries session search credentials and
`c8env` carries competing environment values; the session values win. -/
theorem c8_session_credentials_over_env_witness :
    searchGoogleRoute sampleState "s" c8env
      = SearchRoute.direct "session-key" "session-cx" ∧
    (∀ ps uk lk ev v, assocFind ps uk = some v → v ≠ "" →
      lookupWithFallback ps uk lk ev = some v) ∧
    (∀ ps uk lk ev v, isTruthy (assocFind ps uk) = false →
      assocFind ps lk = some v → v ≠ "" →
      lookupWithFallback ps uk lk ev = some v) ∧
    (∀ ps uk lk ev, isTruthy (assocFind ps uk) = false →
      isTruthy (assocFind ps lk) = false →
      lookupWithFallback ps uk lk ev = ev) :=
  c8_session_credentials_over_env sampleState "s" sampleLock
    [("google_api_key", "session-key"), ("search_engine_id", "session-cx")]
    "session-key" "session-cx" c8env rfl rfl rfl (by decide) rfl (by decide)

end Eigent
